import Mathlib

/-!
# Verification of `src/app.py` (Frontegg bulk user actions)

Shallow embedding of the Python module `app.py`. The embedding is layered:

* `callApiWithRetry` models `UserBulkManager._call_api_with_retry` over an
  abstract stream of network attempt outcomes, tracking the backoff sleeps
  and the number of physical HTTP requests issued.
* The manager methods (`authenticate` / `_auth_headers` / `_ensure_user_id` /
  `lock_user` / `delete_user` / `run`) are modelled over a `World` giving, for
  each endpoint, the triple `(jsonBody?, statusCode, rawText)` that
  `_call_api_with_retry` would return for that call.  JSON bodies are
  modelled as flat string-valued association lists (the only shape this
  client ever reads); a body that is absent or not a JSON object is `none`.
* Python exceptions (`raise ValueError` / `raise Exception`) are modelled
  with `Except`; side effects performed before an exception are kept by
  returning the updated state alongside the error.
-/

deriving instance DecidableEq for Except

namespace FronteggBulk

/-- A JSON object body, as used by this client: flat, string-valued. -/
abbrev Jdict := List (String × String)

/-- Return triple of `_call_api_with_retry`: `(jsonBody?, statusCode, rawText)`. -/
abbrev ApiResult := Option Jdict × Nat × String

/-! ## The UUID v4 pattern (`UUID_V4_RE`, app.py lines 39-41) -/

/-- Matches `[0-9a-fA-F]`. -/
def isHexChar (c : Char) : Bool :=
  c.isDigit || ('a' ≤ c && c ≤ 'f') || ('A' ≤ c && c ≤ 'F')

/-- Matches `[1-5]`, the version nibble of the third group. -/
def isVersionChar (c : Char) : Bool :=
  '1' ≤ c && c ≤ '5'

/-- Matches `[89abAB]`, the variant nibble of the fourth group. -/
def isVariantChar (c : Char) : Bool :=
  c == '8' || c == '9' || c == 'a' || c == 'b' || c == 'A' || c == 'B'

/-- What the regex requires of the character at position `i` (0-based) of the
36-character UUID core: dashes at 8/13/18/23, version nibble at 14, variant
nibble at 19, hex everywhere else. -/
def uuidPosOk (i : Nat) (c : Char) : Bool :=
  if i == 8 || i == 13 || i == 18 || i == 23 then c == '-'
  else if i == 14 then isVersionChar c
  else if i == 19 then isVariantChar c
  else isHexChar c

/-- The 36-character core of `UUID_V4_RE` matches `cs` exactly. -/
def uuidChars (cs : List Char) : Bool :=
  cs.length == 36 && (List.range 36).all (fun i =>
    match cs[i]? with
    | some c => uuidPosOk i c
    | none => false)

/-- Models `bool(UUID_V4_RE.match(s))`.  Python's `$` also matches just before a
single newline at the very end of the string, so `core ++ "\n"` matches too. -/
def looksLikeUuid (s : String) : Bool :=
  uuidChars s.toList ||
    (match s.toList.getLast? with
     | some c => (c == '\n') && uuidChars s.toList.dropLast
     | none => false)

/-- The strict UUIDv4 pattern as the spec describes it (8-4-4-4-12 hex groups,
version nibble 1-5, variant nibble 8/9/a/b), with no trailing-newline
allowance.  Spec-side definition, used to state claims about strict inputs. -/
def strictUuidV4 (s : String) : Bool :=
  uuidChars s.toList

/-! ## The retry client (`_call_api_with_retry`, app.py lines 85-136) -/

/-- Outcome of one physical HTTP request attempt. -/
inductive NetResult where
  /-- The request produced an HTTP response; `json` is its body parsed as a
  flat JSON object when it is one, `none` otherwise. -/
  | response (status : Nat) (json : Option Jdict) (text : String)
  /-- The request raised `requests.exceptions.RequestException`. -/
  | netError (msg : String)
deriving Repr

/-- Retry configuration: `self.rate_limit_delay` and `self.max_retries`. -/
structure RetryCfg where
  rateLimitDelay : ℚ
  maxRetries : Nat
deriving Repr, DecidableEq

/-- Instrumented result of `_call_api_with_retry`: the returned triple, the
list of backoff sleeps (`wait_time = 2**retry_count * rate_limit_delay`)
performed before retries, in order, and the number of physical requests
issued.  (The fixed throttle sleep of `rate_limit_delay` before every request
is not in `backoffs`; it equals `requests * rateLimitDelay` in total.) -/
structure CallTrace where
  result : ApiResult
  backoffs : List ℚ
  requests : Nat
deriving Repr, DecidableEq

/-- Models `_call_api_with_retry`: attempt `attempts retryCount`; on 429 with retries
remaining, or on a network exception with retries remaining, sleep
`2^retryCount * rateLimitDelay` and recurse with `retryCount + 1`; on
success status (200/201/204) return the parsed body (an empty object when
parsing fails); on any other status return `(none, status, text)`; on a
network exception with retries exhausted return `(none, 0, msg)`. -/
def callApiWithRetry (cfg : RetryCfg) (attempts : Nat → NetResult)
    (retryCount : Nat) : CallTrace :=
  match attempts retryCount with
  | .netError msg =>
    if _h : retryCount < cfg.maxRetries then
      let rest := callApiWithRetry cfg attempts (retryCount + 1)
      { result := rest.result,
        backoffs := ((2 ^ retryCount : ℚ) * cfg.rateLimitDelay) :: rest.backoffs,
        requests := rest.requests + 1 }
    else
      { result := (none, 0, msg), backoffs := [], requests := 1 }
  | .response status json text =>
    if _h : status = 429 ∧ retryCount < cfg.maxRetries then
      let rest := callApiWithRetry cfg attempts (retryCount + 1)
      { result := rest.result,
        backoffs := ((2 ^ retryCount : ℚ) * cfg.rateLimitDelay) :: rest.backoffs,
        requests := rest.requests + 1 }
    else if status = 200 ∨ status = 201 ∨ status = 204 then
      { result := (some (json.getD []), status, text), backoffs := [], requests := 1 }
    else
      { result := (none, status, text), backoffs := [], requests := 1 }
termination_by cfg.maxRetries - retryCount
decreasing_by
  · omega
  · exact Nat.sub_lt_sub_left _h.2 (Nat.lt_succ_self _)

/-! ## Manager construction (`UserBulkManager.__init__`, app.py lines 58-82) -/

/-- The `Region` enum. -/
inductive Region where
  | EU
  | US
  | AP
deriving Repr, DecidableEq

/-- Models `str.upper()` for the ASCII region strings this program compares
(structurally recursive, unlike `String.toUpper`, so proofs can evaluate it). -/
def pyUpper (s : String) : String :=
  ⟨s.data.map Char.toUpper⟩

/-- Models `Region(region_str)`: succeeds exactly on "EU", "US", "AP". -/
def parseRegion (s : String) : Option Region :=
  if s = "EU" then some .EU
  else if s = "US" then some .US
  else if s = "AP" then some .AP
  else none

/-- The constructor-captured state of `UserBulkManager` that the claims need
(`client_id`, `api_token`, `tenant_id`, `region`). -/
structure Manager where
  clientId : String
  apiToken : String
  tenantId : String
  region : Region
deriving Repr, DecidableEq

/-- The two `ValueError`s `__init__` can raise. -/
inductive InitError where
  | badRegion
  | missingCredentials
deriving Repr, DecidableEq

/-- Models `UserBulkManager.__init__`, over the construction-time environment
(`env k = none` models an unset variable).  The region is validated before
the credentials check, matching the source order. -/
def mkManager (env : String → Option String) : Except InitError Manager :=
  let clientId := (env "FRONTEGG_CLIENT_ID").getD ""
  let apiToken := (env "FRONTEGG_API_TOKEN").getD ""
  let tenantId := (env "FRONTEGG_TENANT_ID").getD ""
  let regionStr := pyUpper ((env "FRONTEGG_REGION").getD "EU")
  match parseRegion regionStr with
  | none => .error .badRegion
  | some region =>
    if clientId = "" || apiToken = "" then .error .missingCredentials
    else .ok { clientId := clientId, apiToken := apiToken,
               tenantId := tenantId, region := region }

/-- Models `load_list_from_env`: split on commas, strip each item, drop empties. -/
def loadListFromEnv (value : String) : List String :=
  ((value.splitOn ",").map String.trim).filter (fun item => item ≠ "")

/-! ## The world model: client-level calls and their results -/

/-- One call made through `_call_api_with_retry`, at the client-call level
(physical retries happen below this level, inside `callApiWithRetry`).
`delete` records the headers actually sent, for the tenant-scoping claims. -/
inductive Call where
  /-- `POST {gateway}/auth/vendor/` from `authenticate`. -/
  | auth
  /-- `GET {identityBase}/resources/users/v1/email?email=...`. -/
  | emailLookup (email : String)
  /-- `POST {identityBase}/resources/users/v1/{userId}/lock`. -/
  | lock (userId : String)
  /-- `DELETE {identityBase}/resources/users/v1/{userId}` with `headers`. -/
  | delete (userId : String) (headers : List (String × String))
deriving Repr, DecidableEq

/-- Is this call a mutating (lock/delete) HTTP call? -/
def mutatingCall : Call → Bool
  | .lock _ => true
  | .delete _ _ => true
  | _ => false

/-- Is this call an authentication request? -/
def isAuthCall : Call → Bool
  | .auth => true
  | _ => false

/-- The environment the manager runs against: for each endpoint, the triple
that `_call_api_with_retry` returns for a call to it, plus the call-time
value of `os.environ.get("FRONTEGG_TENANT_ID", "")` read by `delete_user`. -/
structure World where
  authResp : ApiResult
  emailResp : String → ApiResult
  lockResp : String → ApiResult
  deleteResp : String → ApiResult
  tenantEnv : String

/-- Mutable manager state threaded through a run: the cached bearer token
(`self.bearer_token`, `None` initially) and the trace of client-level calls
issued so far. -/
structure RunState where
  token : Option String
  calls : List Call
deriving Repr, DecidableEq

/-- Errors raised by `authenticate` and `run`. -/
inductive RunError where
  /-- `ValueError("USER_ID_ARRAY must not be empty")`. -/
  | emptyList
  /-- `Exception(f"Failed to authenticate with Frontegg (status ...): ...")`. -/
  | authFailed (status : Nat) (raw : String)
  /-- `ValueError("Invalid action, must be 'lock' or 'delete'")`. -/
  | invalidAction
deriving Repr, DecidableEq

/-- The dict `self.default_headers`. -/
def defaultHeaders : List (String × String) :=
  [("accept", "application/json"), ("content-type", "application/json")]

/-- The dict merge `{**self.default_headers, "authorization": f"Bearer {token}"}`. -/
def mkAuthHeaders (tok : String) : List (String × String) :=
  defaultHeaders ++ [("authorization", "Bearer " ++ tok)]

/-- The decision `authenticate` takes on the auth response: raise unless the
body is a non-empty JSON object (`not resp_json`) containing a `"token"` key
(`"token" not in resp_json`); otherwise cache and return that token. -/
def authenticateResult (resp : ApiResult) : Except RunError String :=
  match resp with
  | (respJson, status, raw) =>
    match respJson with
    | none => .error (.authFailed status raw)
    | some d =>
      if d.isEmpty then .error (.authFailed status raw)
      else
        match d.lookup "token" with
        | none => .error (.authFailed status raw)
        | some tok => .ok tok

/-- A fresh `authenticate()` call: issue the auth POST, then either raise or
cache the returned token. -/
def authFresh (w : World) (st : RunState) :
    Except RunError (List (String × String)) × RunState :=
  let st1 : RunState := { st with calls := st.calls ++ [Call.auth] }
  match authenticateResult w.authResp with
  | .error e => (.error e, st1)
  | .ok tok => (.ok (mkAuthHeaders tok), { st1 with token := some tok })

/-- Models `_auth_headers`: `if not self.bearer_token: self.authenticate()` — a
cached empty-string token is falsy in Python and re-triggers
`authenticate()` — then build headers from the cached token. -/
def doAuthHeaders (w : World) (st : RunState) :
    Except RunError (List (String × String)) × RunState :=
  match st.token with
  | some t => if t = "" then authFresh w st else (.ok (mkAuthHeaders t), st)
  | none => authFresh w st

/-- The decision `_resolve_user_id_by_email` takes on the lookup response:
`status == 200 and isinstance(resp_json, dict)`, then `uid = resp_json.get("id")`
and `if uid and self._looks_like_uuid(uid): return uid`, else `None`. -/
def lookupDecision : ApiResult → Option String
  | (respJson, status, _raw) =>
    match respJson with
    | some d =>
      if status = 200 then
        match d.lookup "id" with
        | some uid => if uid ≠ "" && looksLikeUuid uid then some uid else none
        | none => none
      else none
    | none => none

/-- Models `_resolve_user_id_by_email`: acquire auth headers (may authenticate, may
raise), issue exactly one email-lookup GET, and decide on its response. -/
def resolveUserIdByEmail (w : World) (st : RunState) (email : String) :
    Except RunError (Option String) × RunState :=
  match doAuthHeaders w st with
  | (.error e, st1) => (.error e, st1)
  | (.ok _hs, st1) =>
    let st2 : RunState := { st1 with calls := st1.calls ++ [Call.emailLookup email] }
    (.ok (lookupDecision (w.emailResp email)), st2)

/-- Models `_ensure_user_id`: a UUID-shaped identifier is returned unchanged with no
call of any kind; anything else is resolved as an email. -/
def ensureUserId (w : World) (st : RunState) (identifier : String) :
    Except RunError (Option String) × RunState :=
  if looksLikeUuid identifier then (.ok (some identifier), st)
  else resolveUserIdByEmail w st identifier

/-- Models `lock_user`: auth headers, one POST to the lock endpoint, success iff
status 200 or 204. -/
def lockUser (w : World) (st : RunState) (userId : String) :
    Except RunError Bool × RunState :=
  match doAuthHeaders w st with
  | (.error e, st1) => (.error e, st1)
  | (.ok _hs, st1) =>
    let st2 : RunState := { st1 with calls := st1.calls ++ [Call.lock userId] }
    match w.lockResp userId with
    | (_respJson, status, _raw) => (.ok (status == 200 || status == 204), st2)

/-- Models `delete_user`: auth headers, then read `FRONTEGG_TENANT_ID` from the
call-time environment and strip it; if non-empty, add the
`frontegg-tenant-id` header; one DELETE; success iff status 200 or 204.
The constructor-captured `mgr.tenantId` is not consulted, mirroring the
source, which reads `os.environ` inside `delete_user`. -/
def deleteUser (_mgr : Manager) (w : World) (st : RunState) (userId : String) :
    Except RunError Bool × RunState :=
  match doAuthHeaders w st with
  | (.error e, st1) => (.error e, st1)
  | (.ok hs, st1) =>
    let tenantId := w.tenantEnv.trim
    let headers := if tenantId ≠ "" then hs ++ [("frontegg-tenant-id", tenantId)] else hs
    let st2 : RunState := { st1 with calls := st1.calls ++ [Call.delete userId headers] }
    match w.deleteResp userId with
    | (_respJson, status, _raw) => (.ok (status == 200 || status == 204), st2)

/-! ## The batch runner (`run`, app.py lines 222-287) -/

/-- A record appended to `processed` or `failed`: a Python dict, modelled as
an association list so that which keys each record carries is visible. -/
abbrev Record := List (String × String)

/-- The dict `{"identifier": identifier, "reason": "not_found"}` (app.py line 238). -/
def notFoundRecord (identifier : String) : Record :=
  [("identifier", identifier), ("reason", "not_found")]

/-- The dict `{"identifier": ..., "userId": ..., "action": ..., "status": ...}`
(app.py lines 242-249, 261-268, 270-277). -/
def outcomeRecord (identifier userId action status : String) : Record :=
  [("identifier", identifier), ("userId", userId),
   ("action", action), ("status", status)]

/-- Models `if ok: processed.append(...)` / `else: failed.append(...)`:
the pair of (records to append to `processed`, records to append to `failed`). -/
def recordOutcome (identifier userId action : String) (ok : Bool) :
    List Record × List Record :=
  if ok then ([outcomeRecord identifier userId action "success"], [])
  else ([], [outcomeRecord identifier userId action "failed"])

/-- The execute-mode dispatch (app.py lines 252-258): lock, delete, or
`raise ValueError("Invalid action, must be 'lock' or 'delete'")`. -/
def execAction (mgr : Manager) (w : World) (action : String) (st : RunState)
    (identifier userId : String) :
    Except RunError (List Record × List Record) × RunState :=
  if action == "lock" then
    match lockUser w st userId with
    | (.error e, st1) => (.error e, st1)
    | (.ok ok, st1) => (.ok (recordOutcome identifier userId action ok), st1)
  else if action == "delete" then
    match deleteUser mgr w st userId with
    | (.error e, st1) => (.error e, st1)
    | (.ok ok, st1) => (.ok (recordOutcome identifier userId action ok), st1)
  else (.error .invalidAction, st)

/-- One loop iteration of `run` (app.py lines 231-277): resolve the
identifier; unresolved → a `not_found` failed record; dry-run → a `dry_run`
processed record; else dispatch on the action. -/
def processIdentifier (mgr : Manager) (w : World) (action : String)
    (dryRun : Bool) (st : RunState) (identifier : String) :
    Except RunError (List Record × List Record) × RunState :=
  match ensureUserId w st identifier with
  | (.error e, st1) => (.error e, st1)
  | (.ok none, st1) => (.ok ([], [notFoundRecord identifier]), st1)
  | (.ok (some userId), st1) =>
    if dryRun then
      (.ok ([outcomeRecord identifier userId action "dry_run"], []), st1)
    else execAction mgr w action st1 identifier userId

/-- The loop of `run` over the identifier list, accumulating `processed` and
`failed`; a raised exception aborts the loop. -/
def runLoop (mgr : Manager) (w : World) (action : String) (dryRun : Bool) :
    List String → RunState → List Record → List Record →
    Except RunError (List Record × List Record) × RunState
  | [], st, ps, fs => (.ok (ps, fs), st)
  | identifier :: rest, st, ps, fs =>
    match processIdentifier mgr w action dryRun st identifier with
    | (.error e, st1) => (.error e, st1)
    | (.ok (pAdd, fAdd), st1) =>
      runLoop mgr w action dryRun rest st1 (ps ++ pAdd) (fs ++ fAdd)

/-- The dict returned by `run` (app.py lines 279-287). -/
structure Report where
  success : Bool
  action : String
  dryRun : Bool
  processedCount : Nat
  failedCount : Nat
  processed : List Record
  failed : List Record
deriving Repr, DecidableEq

/-- Models `run(action, dry_run)`: reject an empty identifier list, authenticate
eagerly via `_auth_headers()`, iterate, and build the report.  `ids` is the
module-level `USER_IDS_OR_EMAILS` list; the manager starts with no cached
token, as after `UserBulkManager()`. -/
def run (mgr : Manager) (w : World) (ids : List String) (action : String)
    (dryRun : Bool) : Except RunError Report × RunState :=
  let st0 : RunState := { token := none, calls := [] }
  if ids.isEmpty then (.error .emptyList, st0)
  else
    match doAuthHeaders w st0 with
    | (.error e, st1) => (.error e, st1)
    | (.ok _hs, st1) =>
      match runLoop mgr w action dryRun ids st1 [] [] with
      | (.error e, st2) => (.error e, st2)
      | (.ok (ps, fs), st2) =>
        (.ok { success := fs.isEmpty, action := action, dryRun := dryRun,
               processedCount := ps.length, failedCount := fs.length,
               processed := ps, failed := fs }, st2)

/-- The resolution outcome of an identifier, as a pure function of the world:
a UUID-shaped identifier resolves to itself, anything else to what the email
lookup decides.  Used to state which identifiers resolve during a run. -/
def resolvesTo (w : World) (identifier : String) : Option String :=
  if looksLikeUuid identifier then some identifier
  else lookupDecision (w.emailResp identifier)

/-! ## Helper lemmas -/

/-- The strict pattern is one of the two ways to match `UUID_V4_RE`. -/
theorem looksLikeUuid_of_strict {s : String} (h : strictUuidV4 s = true) :
    looksLikeUuid s = true := by
  rw [strictUuidV4] at h
  simp [looksLikeUuid, h]
  exact Or.inl h

/-- A string matching `UUID_V4_RE` is non-empty (so Python's truthiness check
`if uid` adds nothing to `looks_like_uuid(uid)`). -/
theorem looksLikeUuid_ne_empty {s : String} (h : looksLikeUuid s = true) :
    s ≠ "" := by
  intro he
  subst he
  exact absurd h (by decide)

/-- With a cached non-empty token, `_auth_headers` reuses it: no state change,
no authentication request. -/
theorem doAuthHeaders_cached (w : World) (st : RunState) (t : String)
    (ht : st.token = some t) (hne : t ≠ "") :
    doAuthHeaders w st = (.ok (mkAuthHeaders t), st) := by
  unfold doAuthHeaders
  rw [ht]
  simp [hne]

/-! ## Concrete fixtures used by witnesses and counterexamples -/

/-- A sample strict UUIDv4. -/
def uuidA : String := "11111111-1111-4111-8111-111111111111"

/-- A second sample strict UUIDv4, used as a resolved email lookup result. -/
def uuidB : String := "22222222-2222-4222-8222-222222222222"

/-- A benign world: authentication yields token `"tok"`, the email
`user@example.com` resolves to `uuidB`, every other email lookup returns 404,
lock fails with 500, delete succeeds with 204, and the call-time
`FRONTEGG_TENANT_ID` is `" t1 "`. -/
def sampleWorld : World :=
  { authResp := (some [("token", "tok")], 200, "")
  , emailResp := fun e =>
      if e = "user@example.com" then (some [("id", uuidB)], 200, "") else (none, 404, "nf")
  , lockResp := fun _ => (none, 500, "boom")
  , deleteResp := fun _ => (some [], 204, "")
  , tenantEnv := " t1 " }

/-- The same world with an empty call-time `FRONTEGG_TENANT_ID`. -/
def sampleWorldNoTenant : World :=
  { sampleWorld with tenantEnv := "" }

/-- A manager as constructed with valid credentials and tenant `"captured"`. -/
def sampleManager : Manager :=
  { clientId := "c", apiToken := "s", tenantId := "captured", region := .EU }

/-- A state in which a non-empty token is already cached and no calls were
made yet. -/
def sampleState : RunState := { token := some "tok", calls := [] }

/-! ## Claims -/

/-- C5: For every input string matching the strict UUIDv4 pattern
(8-4-4-4-12 hex groups, version nibble 1-5, variant nibble 8/9/a/b), the
resolver `_ensure_user_id` returns the input string unchanged and performs no
HTTP call: the result is `some s` and the state — including the trace of
calls issued — is unchanged. -/
theorem C5_ensure_user_id_returns_strict_uuid_unchanged
    (w : World) (st : RunState) (s : String) (h : strictUuidV4 s = true) :
    ensureUserId w st s = (.ok (some s), st) := by
  unfold ensureUserId
  simp [looksLikeUuid_of_strict h]

/-- Witness for C5 at the concrete UUID `uuidA`. -/
theorem C5_witness :
    strictUuidV4 uuidA = true ∧
    ensureUserId sampleWorld sampleState uuidA = (.ok (some uuidA), sampleState) :=
  ⟨by decide, C5_ensure_user_id_returns_strict_uuid_unchanged
      sampleWorld sampleState uuidA (by decide)⟩

/-- With a cached non-empty token, `delete_user` issues exactly one DELETE
call; its headers are the auth headers plus, when the call-time stripped
tenant id is non-empty, the `frontegg-tenant-id` header. -/
theorem deleteUser_state (mgr : Manager) (w : World) (st : RunState)
    (t userId : String) (ht : st.token = some t) (hne : t ≠ "") :
    (deleteUser mgr w st userId).2 =
      { st with calls := st.calls ++ [Call.delete userId (mkAuthHeaders t ++
          (if w.tenantEnv.trim = "" then []
           else [("frontegg-tenant-id", w.tenantEnv.trim)]))] } := by
  unfold deleteUser
  rw [doAuthHeaders_cached w st t ht hne]
  rcases hw : w.deleteResp userId with ⟨j, status, raw⟩
  by_cases h : w.tenantEnv.trim = "" <;> simp [h]

/-- The key `frontegg-tenant-id` is not among the default/auth headers. -/
theorem lookup_tenant_mkAuthHeaders (t : String) :
    (mkAuthHeaders t).lookup "frontegg-tenant-id" = none := rfl

/-- Appending the tenant header makes it the looked-up value. -/
theorem lookup_tenant_appended (t v : String) :
    ((mkAuthHeaders t) ++ [("frontegg-tenant-id", v)]).lookup "frontegg-tenant-id"
      = some v := rfl

/-- C9: For every `delete_user` call made while a tenant identifier is
configured (non-empty after stripping), the DELETE request carries the header
`frontegg-tenant-id` equal to the configured tenant id; when no tenant
identifier is configured, the request carries no such header (the deletion is
global).  Stated for a cached non-empty bearer token, i.e. after the runner's
eager authentication. -/
theorem C9_delete_user_tenant_scoping_header
    (mgr : Manager) (w : World) (st : RunState) (t userId : String)
    (ht : st.token = some t) (hne : t ≠ "") :
    ∃ hs, (deleteUser mgr w st userId).2.calls = st.calls ++ [Call.delete userId hs] ∧
      (w.tenantEnv.trim ≠ "" → hs.lookup "frontegg-tenant-id" = some w.tenantEnv.trim) ∧
      (w.tenantEnv.trim = "" → hs.lookup "frontegg-tenant-id" = none) := by
  refine ⟨mkAuthHeaders t ++
    (if w.tenantEnv.trim = "" then []
     else [("frontegg-tenant-id", w.tenantEnv.trim)]), ?_, ?_, ?_⟩
  · rw [deleteUser_state mgr w st t userId ht hne]
  · intro h
    simp [h, lookup_tenant_appended]
  · intro h
    simp [h, lookup_tenant_mkAuthHeaders]

/-- Witness for C9: in `sampleWorld` (call-time tenant `" t1 "`), with the
token `"tok"` cached, the DELETE for `uuidA` carries `frontegg-tenant-id`. -/
theorem C9_witness :
    sampleState.token = some "tok" ∧ "tok" ≠ "" ∧
    ∃ hs, (deleteUser sampleManager sampleWorld sampleState uuidA).2.calls =
        sampleState.calls ++ [Call.delete uuidA hs] ∧
      (sampleWorld.tenantEnv.trim ≠ "" →
        hs.lookup "frontegg-tenant-id" = some sampleWorld.tenantEnv.trim) ∧
      (sampleWorld.tenantEnv.trim = "" →
        hs.lookup "frontegg-tenant-id" = none) :=
  ⟨rfl, by decide, C9_delete_user_tenant_scoping_header sampleManager sampleWorld
    sampleState "tok" uuidA rfl (by decide)⟩

/-- C10: `delete_user` determines the tenant-scoping header from the
`FRONTEGG_TENANT_ID` environment variable read and whitespace-stripped at
call time (`w.tenantEnv`), not from the `tenant_id` value captured at
construction: (1) the constructor captures the construction-time value
unstripped; (2) `delete_user` is entirely independent of the constructed
manager, so two managers captured from different environments issue
identical calls; (3) the header sent is present iff the call-time value is
non-empty after stripping, with the stripped value. -/
theorem C10_delete_user_uses_call_time_env
    (env : String → Option String) (mgr mgr2 : Manager) (w : World)
    (st : RunState) (t userId : String) (hmk : mkManager env = .ok mgr)
    (ht : st.token = some t) (hne : t ≠ "") :
    mgr.tenantId = (env "FRONTEGG_TENANT_ID").getD "" ∧
    deleteUser mgr w st userId = deleteUser mgr2 w st userId ∧
    (deleteUser mgr w st userId).2.calls =
      st.calls ++ [Call.delete userId (mkAuthHeaders t ++
        (if w.tenantEnv.trim = "" then []
         else [("frontegg-tenant-id", w.tenantEnv.trim)]))] := by
  refine ⟨?_, rfl, ?_⟩
  · simp only [mkManager] at hmk
    split at hmk
    · exact absurd hmk (by simp)
    · split at hmk
      · exact absurd hmk (by simp)
      · cases hmk
        rfl
  · rw [deleteUser_state mgr w st t userId ht hne]

/-- Witness for C10: a manager constructed with `FRONTEGG_TENANT_ID=captured`
deletes with the header taken from the call-time environment `" t1 "`. -/
theorem C10_witness :
    mkManager (fun k =>
      if k = "FRONTEGG_CLIENT_ID" then some "c"
      else if k = "FRONTEGG_API_TOKEN" then some "s"
      else if k = "FRONTEGG_TENANT_ID" then some "captured"
      else none) = .ok sampleManager ∧
    sampleState.token = some "tok" ∧ "tok" ≠ "" ∧
    (sampleManager.tenantId = "captured" ∧
     deleteUser sampleManager sampleWorld sampleState uuidA =
       deleteUser { sampleManager with tenantId := "other" } sampleWorld sampleState uuidA ∧
     (deleteUser sampleManager sampleWorld sampleState uuidA).2.calls =
       sampleState.calls ++ [Call.delete uuidA (mkAuthHeaders "tok" ++
         (if sampleWorld.tenantEnv.trim = "" then []
          else [("frontegg-tenant-id", sampleWorld.tenantEnv.trim)]))]) := by
  refine ⟨by decide, rfl, by decide, ?_⟩
  have h := C10_delete_user_uses_call_time_env
    (fun k =>
      if k = "FRONTEGG_CLIENT_ID" then some "c"
      else if k = "FRONTEGG_API_TOKEN" then some "s"
      else if k = "FRONTEGG_TENANT_ID" then some "captured"
      else none)
    sampleManager { sampleManager with tenantId := "other" } sampleWorld
    sampleState "tok" uuidA (by decide) rfl (by decide)
  exact ⟨h.1, h.2.1, h.2.2⟩

/-- Bridge between list-map sums and `Finset.range` sums. -/
theorem sum_map_range_eq_finset_sum (n : ℕ) (f : ℕ → ℚ) :
    ((List.range n).map f).sum = ∑ i ∈ Finset.range n, f i := by
  induction n with
  | zero => simp
  | succ m ih =>
    rw [Finset.sum_range_succ, List.range_succ, List.map_append, List.sum_append, ih]
    simp

/-- After `N` consecutive 429 responses starting at retry counter `r` (with
`r + N` within the retry budget) followed by a 200, `_call_api_with_retry`
returns the success result, having backed off `2^i * delay` for each retry
counter value `i` in `[r, r+N)`, and issued `N + 1` requests. -/
theorem callApi_429_then_success (cfg : RetryCfg) (attempts : Nat → NetResult)
    (js : Nat → Option Jdict) (ts : Nat → String) (jN : Option Jdict) (tN : String) :
    ∀ N r : Nat, r + N ≤ cfg.maxRetries →
      (∀ i, i < N → attempts (r + i) = .response 429 (js (r + i)) (ts (r + i))) →
      attempts (r + N) = .response 200 jN tN →
      callApiWithRetry cfg attempts r =
        { result := (some (jN.getD []), 200, tN),
          backoffs := (List.range' r N).map
            (fun i => (2 ^ i : ℚ) * cfg.rateLimitDelay),
          requests := N + 1 } := by
  intro N
  induction N with
  | zero =>
    intro r _hle _h429 hsucc
    rw [Nat.add_zero] at hsucc
    unfold callApiWithRetry
    rw [hsucc]
    simp
  | succ M ih =>
    intro r hle h429 hsucc
    have hr : attempts r = .response 429 (js r) (ts r) := by
      have := h429 0 (Nat.succ_pos M)
      simpa using this
    have hlt : r < cfg.maxRetries := by omega
    have hrec := ih (r + 1) (by omega)
      (fun i hi => by
        have := h429 (i + 1) (by omega)
        rw [show r + (i + 1) = r + 1 + i by omega] at this
        exact this)
      (by rw [show r + 1 + M = r + (M + 1) by omega]; exact hsucc)
    unfold callApiWithRetry
    rw [hr]
    dsimp only
    rw [dif_pos ⟨rfl, hlt⟩, hrec, List.range'_succ, List.map_cons]

/-- With every attempt up to the retry budget answering 429,
`_call_api_with_retry` exhausts its retries and returns the last 429
response as-is: `(none, 429, text)` with the raw text of the final attempt,
after backoffs for the remaining retry counter values and one request per
attempt. -/
theorem callApi_429_exhausted (cfg : RetryCfg) (attempts : Nat → NetResult)
    (js : Nat → Option Jdict) (ts : Nat → String) :
    ∀ n r : Nat, r + n = cfg.maxRetries →
      (∀ i, r ≤ i → i ≤ cfg.maxRetries → attempts i = .response 429 (js i) (ts i)) →
      callApiWithRetry cfg attempts r =
        { result := (none, 429, ts cfg.maxRetries),
          backoffs := (List.range' r n).map
            (fun i => (2 ^ i : ℚ) * cfg.rateLimitDelay),
          requests := n + 1 } := by
  intro n
  induction n with
  | zero =>
    intro r hr h429
    have hrm : r = cfg.maxRetries := by omega
    subst hrm
    have hra := h429 cfg.maxRetries le_rfl le_rfl
    unfold callApiWithRetry
    rw [hra]
    dsimp only
    rw [dif_neg (by simp)]
    simp
  | succ M ih =>
    intro r hr h429
    have hra : attempts r = .response 429 (js r) (ts r) :=
      h429 r le_rfl (by omega)
    have hlt : r < cfg.maxRetries := by omega
    have hrec := ih (r + 1) (by omega) (fun i hi hi2 => h429 i (by omega) hi2)
    unfold callApiWithRetry
    rw [hra]
    dsimp only
    rw [dif_pos ⟨rfl, hlt⟩, hrec, List.range'_succ, List.map_cons]

/-- C7: For every `N` not exceeding `maxRetries`, when `_call_api_with_retry`
encounters `N` consecutive HTTP 429 responses followed by a success response,
it performs exactly `N` retries (`N + 1` physical requests) and the total
elapsed backoff wait equals the sum of `2^i * rateLimitDelay` for
`i ∈ [0, N)`; and when every attempt within the budget answers 429, the call
returns the last 429 response as-is — status 429 with its raw body, not a
fabricated error. -/
theorem C7_retry_count_and_backoff (cfg : RetryCfg) (attempts : Nat → NetResult)
    (js : Nat → Option Jdict) (ts : Nat → String) :
    (∀ N jN tN, N ≤ cfg.maxRetries →
      (∀ i, i < N → attempts i = .response 429 (js i) (ts i)) →
      attempts N = .response 200 jN tN →
      (callApiWithRetry cfg attempts 0).requests = N + 1 ∧
      (callApiWithRetry cfg attempts 0).backoffs =
        (List.range N).map (fun i => (2 ^ i : ℚ) * cfg.rateLimitDelay) ∧
      (callApiWithRetry cfg attempts 0).backoffs.sum =
        ∑ i ∈ Finset.range N, (2 ^ i : ℚ) * cfg.rateLimitDelay ∧
      (callApiWithRetry cfg attempts 0).result = (some (jN.getD []), 200, tN)) ∧
    ((∀ i, i ≤ cfg.maxRetries → attempts i = .response 429 (js i) (ts i)) →
      (callApiWithRetry cfg attempts 0).result = (none, 429, ts cfg.maxRetries)) := by
  constructor
  · intro N jN tN hN h429 hsucc
    have h := callApi_429_then_success cfg attempts js ts jN tN N 0 (by omega)
      (fun i hi => by simpa using h429 i hi) (by simpa using hsucc)
    rw [h]
    refine ⟨rfl, ?_, ?_, rfl⟩
    · rw [← List.range_eq_range']
    · rw [← List.range_eq_range', sum_map_range_eq_finset_sum]
  · intro h429
    have h := callApi_429_exhausted cfg attempts js ts cfg.maxRetries 0 (by omega)
      (fun i _hi hi2 => h429 i hi2)
    rw [h]

/-- Attempt stream answering 429 twice, then succeeding. -/
def attemptsTwo429 : Nat → NetResult := fun i =>
  if i < 2 then .response 429 none "rl" else .response 200 (some []) "ok"

/-- Attempt stream answering 429 forever. -/
def attemptsAll429 : Nat → NetResult := fun _ => .response 429 none "rl"

/-- Witness for C7 with `delay = 1/2`, `maxRetries = 3`, `N = 2`, and an
exhausted all-429 stream. -/
theorem C7_witness :
    (callApiWithRetry ⟨1/2, 3⟩ attemptsTwo429 0).requests = 2 + 1 ∧
    (callApiWithRetry ⟨1/2, 3⟩ attemptsTwo429 0).backoffs =
      (List.range 2).map (fun i => (2 ^ i : ℚ) * (1/2)) ∧
    (callApiWithRetry ⟨1/2, 3⟩ attemptsTwo429 0).backoffs.sum =
      ∑ i ∈ Finset.range 2, (2 ^ i : ℚ) * (1/2) ∧
    (callApiWithRetry ⟨1/2, 3⟩ attemptsTwo429 0).result = (some [], 200, "ok") ∧
    (callApiWithRetry ⟨1/2, 3⟩ attemptsAll429 0).result = (none, 429, "rl") := by
  have h1 := (C7_retry_count_and_backoff ⟨1/2, 3⟩ attemptsTwo429
    (fun _ => none) (fun _ => "rl")).1 2 (some []) "ok" (by decide)
    (fun i hi => by unfold attemptsTwo429; rw [if_pos hi]) rfl
  have h2 := (C7_retry_count_and_backoff ⟨1/2, 3⟩ attemptsAll429
    (fun _ => none) (fun _ => "rl")).2 (fun i _hi => rfl)
  exact ⟨h1.1, h1.2.1, h1.2.2.1, h1.2.2.2, h2⟩

/-- The resolver's decision yields a user id exactly for a 200 response whose
JSON-object body has an `id` field matching the UUID pattern.  (Python's
truthiness guard `if uid` adds nothing: a string matching the pattern is
non-empty.) -/
theorem lookupDecision_eq_some (resp : ApiResult) (uid : String) :
    lookupDecision resp = some uid ↔
      (resp.2.1 = 200 ∧ ∃ d, resp.1 = some d ∧ d.lookup "id" = some uid ∧
        looksLikeUuid uid = true) := by
  rcases resp with ⟨j, status, raw⟩
  cases j with
  | none => simp [lookupDecision]
  | some d =>
    simp only [lookupDecision]
    by_cases hs : status = 200
    · subst hs
      rw [if_pos rfl]
      cases hl : d.lookup "id" with
      | none => simp [hl]
      | some u =>
        dsimp only
        by_cases hu : (decide (u ≠ "") && looksLikeUuid u) = true
        · rw [if_pos hu]
          have hu2 : looksLikeUuid u = true := (Bool.and_eq_true .. |>.mp hu).2
          constructor
          · intro h
            injection h with h2
            subst h2
            exact ⟨rfl, d, rfl, hl, hu2⟩
          · rintro ⟨-, d2, hd2, hlu, -⟩
            injection hd2 with hd3
            subst hd3
            rw [hl] at hlu
            injection hlu with h4
            rw [h4]
        · rw [if_neg hu]
          constructor
          · intro h
            exact Option.noConfusion h
          · rintro ⟨-, d2, hd2, hlu, hlooks⟩
            injection hd2 with hd3
            subst hd3
            rw [hl] at hlu
            injection hlu with h4
            subst h4
            exact absurd (by simp [looksLikeUuid_ne_empty hlooks, hlooks]) hu
    · rw [if_neg hs]
      simp [hs]

/-- C6: For every input string not matching the UUIDv4 pattern, the resolver
issues exactly one email-lookup GET call (at the client-call level; the
retried physical requests live below this layer); if that call returns
status 200 with a JSON object body whose `id` field is present and itself
matches the UUID pattern, the resolver returns that id; for every other
outcome it returns `none` and does not throw.  Stated with a non-empty
cached token, i.e. after the runner's eager authentication. -/
theorem C6_email_resolution_contract (w : World) (st : RunState)
    (t email : String) (hnot : looksLikeUuid email = false)
    (ht : st.token = some t) (hne : t ≠ "") :
    (ensureUserId w st email).2.calls = st.calls ++ [Call.emailLookup email] ∧
    (∀ e, (ensureUserId w st email).1 ≠ .error e) ∧
    (∀ uid, (ensureUserId w st email).1 = .ok (some uid) ↔
      ((w.emailResp email).2.1 = 200 ∧ ∃ d, (w.emailResp email).1 = some d ∧
        d.lookup "id" = some uid ∧ looksLikeUuid uid = true)) := by
  have hres : ensureUserId w st email =
      (.ok (lookupDecision (w.emailResp email)),
        { st with calls := st.calls ++ [Call.emailLookup email] }) := by
    unfold ensureUserId
    rw [if_neg (by simp [hnot])]
    unfold resolveUserIdByEmail
    rw [doAuthHeaders_cached w st t ht hne]
  rw [hres]
  refine ⟨rfl, ?_, ?_⟩
  · intro e h
    exact Except.noConfusion h
  · intro uid
    have hiff := lookupDecision_eq_some (w.emailResp email) uid
    constructor
    · intro h
      injection h with h2
      exact hiff.mp h2
    · intro h
      rw [hiff.mpr h]

/-- Witness for C6: the non-UUID identifier `user@example.com` in
`sampleWorld` resolves via exactly one lookup call, and the iff holds at
`uuidB`. -/
theorem C6_witness :
    looksLikeUuid "user@example.com" = false ∧
    sampleState.token = some "tok" ∧ "tok" ≠ "" ∧
    ((ensureUserId sampleWorld sampleState "user@example.com").2.calls =
        sampleState.calls ++ [Call.emailLookup "user@example.com"] ∧
      (∀ e, (ensureUserId sampleWorld sampleState "user@example.com").1 ≠ .error e) ∧
      (∀ uid, (ensureUserId sampleWorld sampleState "user@example.com").1 = .ok (some uid) ↔
        ((sampleWorld.emailResp "user@example.com").2.1 = 200 ∧
          ∃ d, (sampleWorld.emailResp "user@example.com").1 = some d ∧
            d.lookup "id" = some uid ∧ looksLikeUuid uid = true))) :=
  ⟨by decide, rfl, by decide,
    C6_email_resolution_contract sampleWorld sampleState "tok" "user@example.com"
      (by decide) rfl (by decide)⟩

/-- With a non-empty cached token, resolution preserves the token and issues
no authentication request. -/
theorem ensureUserId_token_cached (w : World) (st : RunState) (t i : String)
    (ht : st.token = some t) (hne : t ≠ "") :
    (ensureUserId w st i).2.token = some t ∧
    (ensureUserId w st i).2.calls.filter isAuthCall = st.calls.filter isAuthCall := by
  unfold ensureUserId
  by_cases hu : looksLikeUuid i = true
  · rw [if_pos hu]
    exact ⟨ht, rfl⟩
  · rw [if_neg hu]
    unfold resolveUserIdByEmail
    rw [doAuthHeaders_cached w st t ht hne]
    exact ⟨ht, by simp [isAuthCall]⟩

/-- With a non-empty cached token, one loop iteration preserves the token and
issues no authentication request, whether it succeeds or raises. -/
theorem processIdentifier_token_cached (mgr : Manager) (w : World)
    (action : String) (dryRun : Bool) (st : RunState) (t i : String)
    (ht : st.token = some t) (hne : t ≠ "") :
    (processIdentifier mgr w action dryRun st i).2.token = some t ∧
    (processIdentifier mgr w action dryRun st i).2.calls.filter isAuthCall =
      st.calls.filter isAuthCall := by
  have hens := ensureUserId_token_cached w st t i ht hne
  unfold processIdentifier
  rcases he : ensureUserId w st i with ⟨res, st1⟩
  rw [he] at hens
  cases res with
  | error e => exact hens
  | ok v =>
    cases v with
    | none => exact hens
    | some userId =>
      cases dryRun with
      | true => exact hens
      | false =>
        dsimp only [Bool.false_eq_true, if_false]
        unfold execAction
        by_cases hl : (action == "lock") = true
        · rw [if_pos hl]
          unfold lockUser
          rw [doAuthHeaders_cached w st1 t hens.1 hne]
          rcases w.lockResp userId with ⟨j2, s2, r2⟩
          exact ⟨hens.1, by simp [isAuthCall, hens.2]⟩
        · rw [if_neg hl]
          by_cases hd : (action == "delete") = true
          · rw [if_pos hd]
            unfold deleteUser
            rw [doAuthHeaders_cached w st1 t hens.1 hne]
            rcases w.deleteResp userId with ⟨j2, s2, r2⟩
            by_cases htr : w.tenantEnv.trim ≠ ""
            · simp only [if_pos htr]
              exact ⟨hens.1, by simp [isAuthCall, hens.2]⟩
            · simp only [if_neg htr]
              exact ⟨hens.1, by simp [isAuthCall, hens.2]⟩
          · rw [if_neg hd]
            exact hens

/-- With a non-empty cached token, the whole loop preserves the token and
issues no authentication request. -/
theorem runLoop_token_cached (mgr : Manager) (w : World) (action : String)
    (dryRun : Bool) (t : String) (hne : t ≠ "") :
    ∀ (ids : List String) (st : RunState) (ps fs : List Record),
      st.token = some t →
      (runLoop mgr w action dryRun ids st ps fs).2.token = some t ∧
      (runLoop mgr w action dryRun ids st ps fs).2.calls.filter isAuthCall =
        st.calls.filter isAuthCall := by
  intro ids
  induction ids with
  | nil =>
    intro st ps fs ht
    exact ⟨ht, rfl⟩
  | cons i rest ih =>
    intro st ps fs ht
    have hstep := processIdentifier_token_cached mgr w action dryRun st t i ht hne
    unfold runLoop
    rcases hp : processIdentifier mgr w action dryRun st i with ⟨res, st1⟩
    rw [hp] at hstep
    cases res with
    | error e => exact hstep
    | ok v =>
      rcases v with ⟨pAdd, fAdd⟩
      have := ih st1 (ps ++ pAdd) (fs ++ fAdd) hstep.1
      exact ⟨this.1, this.2.trans hstep.2⟩

/-- A world whose auth endpoint answers 200 with an empty `token` field. -/
def emptyTokenWorld : World :=
  { sampleWorld with authResp := (some [("token", "")], 200, "raw") }

/-- Counterexample to C8 as stated: a cached token does not guarantee that
`_auth_headers` issues no further authentication request.  If the provider's
auth response carries an empty `token` field, `authenticate()` succeeds
(returns without raising) and caches `""`; the next `_auth_headers` call sees
a cached token that is falsy in Python (`if not self.bearer_token`) and
issues a second authentication request — so "triggers authenticate exactly
when no token is cached" fails at this state. -/
theorem C8_cex_auth_retriggered_despite_cached_token :
    authenticateResult emptyTokenWorld.authResp = .ok "" ∧
    (doAuthHeaders emptyTokenWorld { token := none, calls := [] }).2 =
      { token := some "", calls := [Call.auth] } ∧
    ({ token := some "", calls := [Call.auth] } : RunState).token ≠ none ∧
    (doAuthHeaders emptyTokenWorld
      { token := some "", calls := [Call.auth] }).2.calls =
      [Call.auth, Call.auth] :=
  ⟨rfl, rfl, by decide, rfl⟩

/-- C8 (amended): authentication is performed at most once per run provided
the provider returns a non-empty token: (1) with a non-empty cached token,
`_auth_headers` reuses it in the `authorization` header and issues no
authentication request; (2) `_auth_headers` triggers `authenticate` exactly
when the cached token is absent or the empty string (Python falsiness);
(3) whenever a successful `authenticate` can only yield a non-empty token,
a whole `run` issues at most one authentication request. -/
theorem C8_auth_at_most_once_amended :
    (∀ (w : World) (st : RunState) (t : String), st.token = some t → t ≠ "" →
      doAuthHeaders w st = (.ok (mkAuthHeaders t), st)) ∧
    (∀ (w : World) (st : RunState), st.token = none ∨ st.token = some "" →
      (doAuthHeaders w st).2.calls = st.calls ++ [Call.auth]) ∧
    (∀ (mgr : Manager) (w : World) (ids : List String) (action : String)
      (dryRun : Bool),
      (∀ tok, authenticateResult w.authResp = .ok tok → tok ≠ "") →
      ((run mgr w ids action dryRun).2.calls.filter isAuthCall).length ≤ 1) := by
  refine ⟨doAuthHeaders_cached, ?_, ?_⟩
  · intro w st h
    rcases h with h | h
    · unfold doAuthHeaders
      rw [h]
      unfold authFresh
      rcases hA : authenticateResult w.authResp with e | tok
      · rfl
      · rfl
    · unfold doAuthHeaders
      rw [h]
      dsimp only
      rw [if_pos rfl]
      unfold authFresh
      rcases hA : authenticateResult w.authResp with e | tok
      · rfl
      · rfl
  · intro mgr w ids action dryRun hgood
    unfold run
    by_cases hids : ids.isEmpty = true
    · rw [if_pos hids]
      simp
    · rw [if_neg hids]
      unfold doAuthHeaders
      dsimp only
      unfold authFresh
      rcases hA : authenticateResult w.authResp with e | tok
      · simp [isAuthCall]
      · have hne := hgood tok hA
        simp only [List.nil_append]
        have hl := runLoop_token_cached mgr w action dryRun tok hne ids
          { token := some tok, calls := [Call.auth] } [] [] rfl
        rcases hr : runLoop mgr w action dryRun ids
          { token := some tok, calls := [Call.auth] } [] [] with ⟨res, st2⟩
        rw [hr] at hl
        cases res with
        | error e =>
          dsimp only
          rw [hl.2]
          simp [isAuthCall]
        | ok v =>
          rcases v with ⟨ps, fs⟩
          dsimp only
          rw [hl.2]
          simp [isAuthCall]

/-- Witness for C8 (amended), at `sampleWorld` (token `"tok"`): the cached
token is reused, a falsy state triggers authentication, and a dry-run over
two identifiers authenticates exactly once. -/
theorem C8_witness :
    (sampleState.token = some "tok" ∧ "tok" ≠ "" ∧
      doAuthHeaders sampleWorld sampleState = (.ok (mkAuthHeaders "tok"), sampleState)) ∧
    (((({ token := none, calls := [] } : RunState)).token = none ∨
        (({ token := none, calls := [] } : RunState)).token = some "") ∧
      (doAuthHeaders sampleWorld { token := none, calls := [] }).2.calls =
        [] ++ [Call.auth]) ∧
    ((∀ tok, authenticateResult sampleWorld.authResp = .ok tok → tok ≠ "") ∧
      (((run sampleManager sampleWorld [uuidA, "nobody@x"] "lock" true).2.calls.filter
        isAuthCall).length ≤ 1)) := by
  refine ⟨⟨rfl, by decide, ?_⟩, ⟨Or.inl rfl, ?_⟩, ⟨?_, ?_⟩⟩
  · exact C8_auth_at_most_once_amended.1 sampleWorld sampleState "tok" rfl (by decide)
  · exact C8_auth_at_most_once_amended.2.1 sampleWorld
      { token := none, calls := [] } (Or.inl rfl)
  · intro tok hA
    injection hA with h2
    rw [← h2]
    decide
  · exact C8_auth_at_most_once_amended.2.2 sampleManager sampleWorld
      [uuidA, "nobody@x"] "lock" true
      (fun tok hA => by injection hA with h2; rw [← h2]; decide)

/-- The accessor `_auth_headers` only ever adds a non-mutating auth call to the trace. -/
theorem doAuthHeaders_calls (w : World) (st : RunState) :
    ∃ extra, (doAuthHeaders w st).2.calls = st.calls ++ extra ∧
      ∀ c ∈ extra, mutatingCall c = false := by
  unfold doAuthHeaders
  cases ht : st.token with
  | none =>
    dsimp only
    unfold authFresh
    rcases hA : authenticateResult w.authResp with e | tok
    · exact ⟨[Call.auth], rfl, by simp [mutatingCall]⟩
    · exact ⟨[Call.auth], rfl, by simp [mutatingCall]⟩
  | some t =>
    dsimp only
    by_cases hte : t = ""
    · rw [if_pos hte]
      unfold authFresh
      rcases hA : authenticateResult w.authResp with e | tok
      · exact ⟨[Call.auth], rfl, by simp [mutatingCall]⟩
      · exact ⟨[Call.auth], rfl, by simp [mutatingCall]⟩
    · rw [if_neg hte]
      exact ⟨[], by simp, by simp⟩

/-- Resolution only ever adds non-mutating calls (auth, email lookup). -/
theorem ensureUserId_calls (w : World) (st : RunState) (i : String) :
    ∃ extra, (ensureUserId w st i).2.calls = st.calls ++ extra ∧
      ∀ c ∈ extra, mutatingCall c = false := by
  unfold ensureUserId
  by_cases hu : looksLikeUuid i = true
  · rw [if_pos hu]
    exact ⟨[], by simp, by simp⟩
  · rw [if_neg hu]
    unfold resolveUserIdByEmail
    rcases hd : doAuthHeaders w st with ⟨ares, st1⟩
    have hdc := doAuthHeaders_calls w st
    rw [hd] at hdc
    rcases hdc with ⟨extra, hext, hnm⟩
    cases ares with
    | error e => exact ⟨extra, hext, hnm⟩
    | ok hs =>
      refine ⟨extra ++ [Call.emailLookup i], ?_, ?_⟩
      · dsimp only
        rw [hext, List.append_assoc]
      · intro c hc
        rcases List.mem_append.mp hc with hc | hc
        · exact hnm c hc
        · rcases List.mem_singleton.mp hc with rfl
          rfl

/-- On a successful resolution, the value is `resolvesTo`: the identifier
itself when UUID-shaped, else the email lookup decision. -/
theorem ensureUserId_ok_val (w : World) (st : RunState) (i : String)
    (v : Option String) (st1 : RunState)
    (h : ensureUserId w st i = (.ok v, st1)) : v = resolvesTo w i := by
  unfold ensureUserId at h
  unfold resolvesTo
  by_cases hu : looksLikeUuid i = true
  · rw [if_pos hu] at h
    rw [if_pos hu]
    cases h
    rfl
  · rw [if_neg hu] at h
    rw [if_neg hu]
    unfold resolveUserIdByEmail at h
    rcases hd : doAuthHeaders w st with ⟨ares, st2⟩
    rw [hd] at h
    cases ares with
    | error e =>
      dsimp only at h
      injection h with h1 h2
      exact Except.noConfusion h1
    | ok hs =>
      dsimp only at h
      injection h with h1 h2
      injection h1 with h3
      exact h3.symm

/-- A raised `authenticate` error is always an `authFailed`. -/
theorem authenticateResult_error_shape (resp : ApiResult) (e : RunError)
    (h : authenticateResult resp = .error e) : ∃ s r, e = .authFailed s r := by
  rcases resp with ⟨j, s, r⟩
  unfold authenticateResult at h
  cases j with
  | none =>
    injection h with h1
    exact ⟨s, r, h1.symm⟩
  | some d =>
    dsimp only at h
    by_cases hde : d.isEmpty = true
    · rw [if_pos hde] at h
      injection h with h1
      exact ⟨s, r, h1.symm⟩
    · rw [if_neg hde] at h
      cases hl : d.lookup "token" with
      | none =>
        rw [hl] at h
        injection h with h1
        exact ⟨s, r, h1.symm⟩
      | some tok =>
        rw [hl] at h
        exact Except.noConfusion h

/-- A raised `_auth_headers` error is always an `authFailed`. -/
theorem doAuthHeaders_error_shape (w : World) (st : RunState) (e : RunError)
    (st1 : RunState) (h : doAuthHeaders w st = (.error e, st1)) :
    ∃ s r, e = .authFailed s r := by
  have hfresh : ∀ st0 : RunState, authFresh w st0 = (.error e, st1) →
      ∃ s r, e = .authFailed s r := by
    intro st0 hf
    unfold authFresh at hf
    rcases hA : authenticateResult w.authResp with e2 | tok
    all_goals rw [hA] at hf
    · have he : e2 = e := by
        injection hf with h1 h2
        exact Except.error.inj h1
      subst he
      exact authenticateResult_error_shape w.authResp e2 hA
    · dsimp only at hf
      injection hf with h1 h2
      exact Except.noConfusion h1
  unfold doAuthHeaders at h
  cases ht : st.token with
  | none =>
    rw [ht] at h
    exact hfresh st h
  | some t =>
    rw [ht] at h
    dsimp only at h
    by_cases hte : t = ""
    · rw [if_pos hte] at h
      exact hfresh st h
    · rw [if_neg hte] at h
      injection h with h1 h2
      exact Except.noConfusion h1

/-- A raised resolution error is an authentication failure, never the
invalid-action `ValueError`. -/
theorem ensureUserId_error_auth (w : World) (st : RunState) (i : String)
    (e : RunError) (st1 : RunState)
    (h : ensureUserId w st i = (.error e, st1)) :
    ∃ s r, e = .authFailed s r := by
  unfold ensureUserId at h
  by_cases hu : looksLikeUuid i = true
  · rw [if_pos hu] at h
    injection h with h1 h2
    exact Except.noConfusion h1
  · rw [if_neg hu] at h
    unfold resolveUserIdByEmail at h
    rcases hd : doAuthHeaders w st with ⟨ares, st2⟩
    rw [hd] at h
    cases ares with
    | ok hs =>
      dsimp only at h
      injection h with h1 h2
      exact Except.noConfusion h1
    | error e2 =>
      dsimp only at h
      have he : e2 = e := by
        injection h with h1 h2
        exact Except.error.inj h1
      subst he
      exact doAuthHeaders_error_shape w st e2 st2 hd

/-- Each successful loop iteration appends exactly one record, of one of the
four shapes the loop can build. -/
theorem processIdentifier_ok_shape (mgr : Manager) (w : World) (action : String)
    (dryRun : Bool) (st : RunState) (i : String) (p f : List Record)
    (st1 : RunState)
    (h : processIdentifier mgr w action dryRun st i = (.ok (p, f), st1)) :
    (p = [] ∧ f = [notFoundRecord i]) ∨
    (∃ uid, p = [outcomeRecord i uid action "dry_run"] ∧ f = []) ∨
    (∃ uid, p = [outcomeRecord i uid action "success"] ∧ f = []) ∨
    (∃ uid, p = [] ∧ f = [outcomeRecord i uid action "failed"]) := by
  unfold processIdentifier at h
  rcases he : ensureUserId w st i with ⟨res, st2⟩
  rw [he] at h
  cases res with
  | error e =>
    dsimp only at h
    injection h with h1 h2
    exact Except.noConfusion h1
  | ok v =>
    cases v with
    | none =>
      dsimp only at h
      injection h with h1 h2
      injection h1 with h3
      exact Or.inl ⟨congrArg Prod.fst h3.symm, congrArg Prod.snd h3.symm⟩
    | some uid =>
      dsimp only at h
      cases dryRun with
      | true =>
        rw [if_pos rfl] at h
        injection h with h1 h2
        injection h1 with h3
        exact Or.inr (Or.inl ⟨uid, congrArg Prod.fst h3.symm, congrArg Prod.snd h3.symm⟩)
      | false =>
        rw [if_neg (by simp)] at h
        unfold execAction at h
        by_cases hl : (action == "lock") = true
        · rw [if_pos hl] at h
          rcases hlock : lockUser w st2 uid with ⟨lres, st3⟩
          rw [hlock] at h
          cases lres with
          | error e =>
            dsimp only at h
            injection h with h1 h2
            exact Except.noConfusion h1
          | ok ok =>
            dsimp only at h
            injection h with h1 h2
            injection h1 with h3
            cases ok with
            | true =>
              refine Or.inr (Or.inr (Or.inl ⟨uid, ?_, ?_⟩)) <;>
                simp [recordOutcome] at h3 <;> simp [h3.1.symm, h3.2.symm]
            | false =>
              refine Or.inr (Or.inr (Or.inr ⟨uid, ?_, ?_⟩)) <;>
                simp [recordOutcome] at h3 <;> simp [h3.1.symm, h3.2.symm]
        · rw [if_neg hl] at h
          by_cases hd : (action == "delete") = true
          · rw [if_pos hd] at h
            rcases hdel : deleteUser mgr w st2 uid with ⟨dres, st3⟩
            rw [hdel] at h
            cases dres with
            | error e =>
              dsimp only at h
              injection h with h1 h2
              exact Except.noConfusion h1
            | ok ok =>
              dsimp only at h
              injection h with h1 h2
              injection h1 with h3
              cases ok with
              | true =>
                refine Or.inr (Or.inr (Or.inl ⟨uid, ?_, ?_⟩)) <;>
                  simp [recordOutcome] at h3 <;> simp [h3.1.symm, h3.2.symm]
              | false =>
                refine Or.inr (Or.inr (Or.inr ⟨uid, ?_, ?_⟩)) <;>
                  simp [recordOutcome] at h3 <;> simp [h3.1.symm, h3.2.symm]
          · rw [if_neg hd] at h
            injection h with h1 h2
            exact Except.noConfusion h1

/-- Each successful loop iteration appends exactly one record in total. -/
theorem processIdentifier_ok_count (mgr : Manager) (w : World) (action : String)
    (dryRun : Bool) (st : RunState) (i : String) (p f : List Record)
    (st1 : RunState)
    (h : processIdentifier mgr w action dryRun st i = (.ok (p, f), st1)) :
    p.length + f.length = 1 := by
  rcases processIdentifier_ok_shape mgr w action dryRun st i p f st1 h with
    ⟨hp, hf⟩ | ⟨uid, hp, hf⟩ | ⟨uid, hp, hf⟩ | ⟨uid, hp, hf⟩ <;> simp [hp, hf]

/-- A successful loop pass over `ids` grows `processed ++ failed` by exactly
`ids.length` records. -/
theorem runLoop_ok_count (mgr : Manager) (w : World) (action : String)
    (dryRun : Bool) :
    ∀ (ids : List String) (st : RunState) (ps fs ps2 fs2 : List Record)
      (st2 : RunState),
      runLoop mgr w action dryRun ids st ps fs = (.ok (ps2, fs2), st2) →
      ps2.length + fs2.length = ps.length + fs.length + ids.length := by
  intro ids
  induction ids with
  | nil =>
    intro st ps fs ps2 fs2 st2 h
    unfold runLoop at h
    injection h with h1 h2
    injection h1 with h3
    injection h3 with hps hfs
    subst hps
    subst hfs
    simp
  | cons i rest ih =>
    intro st ps fs ps2 fs2 st2 h
    unfold runLoop at h
    rcases hp : processIdentifier mgr w action dryRun st i with ⟨res, st1⟩
    rw [hp] at h
    cases res with
    | error e =>
      dsimp only at h
      injection h with h1 h2
      exact Except.noConfusion h1
    | ok v =>
      rcases v with ⟨pAdd, fAdd⟩
      dsimp only at h
      have hstep := processIdentifier_ok_count mgr w action dryRun st i pAdd fAdd st1 hp
      have := ih st1 (ps ++ pAdd) (fs ++ fAdd) ps2 fs2 st2 h
      rw [this]
      simp [List.length_append]
      omega

/-- Inversion of a `run` that returned a report: the identifier list was
non-empty, eager authentication succeeded, the loop succeeded, and the
report's fields are built from the loop's accumulators. -/
theorem run_ok_inversion (mgr : Manager) (w : World) (ids : List String)
    (action : String) (dryRun : Bool) (r : Report) (st2 : RunState)
    (h : run mgr w ids action dryRun = (.ok r, st2)) :
    ∃ st1 hs ps fs,
      ids.isEmpty = false ∧
      doAuthHeaders w { token := none, calls := [] } = (.ok hs, st1) ∧
      runLoop mgr w action dryRun ids st1 [] [] = (.ok (ps, fs), st2) ∧
      r = { success := fs.isEmpty, action := action, dryRun := dryRun,
            processedCount := ps.length, failedCount := fs.length,
            processed := ps, failed := fs } := by
  unfold run at h
  by_cases hids : ids.isEmpty = true
  · rw [if_pos hids] at h
    injection h with h1 h2
    exact Except.noConfusion h1
  · rw [if_neg hids] at h
    rcases ha : doAuthHeaders w { token := none, calls := [] } with ⟨ares, st1⟩
    rw [ha] at h
    cases ares with
    | error e =>
      dsimp only at h
      injection h with h1 h2
      exact Except.noConfusion h1
    | ok hs =>
      dsimp only at h
      rcases hl : runLoop mgr w action dryRun ids st1 [] [] with ⟨lres, st3⟩
      rw [hl] at h
      cases lres with
      | error e =>
        dsimp only at h
        injection h with h1 h2
        exact Except.noConfusion h1
      | ok v =>
        rcases v with ⟨ps, fs⟩
        dsimp only at h
        injection h with h1 h2
        subst h2
        exact ⟨st1, hs, ps, fs, by simpa using hids, rfl, hl, (Except.ok.inj h1).symm⟩

/-- C2: For every run of `run(action, dryRun)` that returns a report,
`processed_count` equals the length of the processed list, `failed_count`
equals the length of the failed list, their sum equals the length of the
configured identifier list, and `success` is true iff `failed_count` is
zero. -/
theorem C2_report_invariants (mgr : Manager) (w : World) (ids : List String)
    (action : String) (dryRun : Bool) (r : Report) (st2 : RunState)
    (h : run mgr w ids action dryRun = (.ok r, st2)) :
    r.processedCount = r.processed.length ∧
    r.failedCount = r.failed.length ∧
    r.processedCount + r.failedCount = ids.length ∧
    (r.success = true ↔ r.failedCount = 0) := by
  rcases run_ok_inversion mgr w ids action dryRun r st2 h with
    ⟨st1, hs, ps, fs, hids, ha, hl, hr⟩
  subst hr
  have hcount := runLoop_ok_count mgr w action dryRun ids st1 [] [] ps fs st2 hl
  refine ⟨rfl, rfl, by simpa using hcount, ?_⟩
  simp [List.isEmpty_iff_length_eq_zero]

/-- Witness for C2: the dry-run over one UUID and one unresolvable email in
`sampleWorld` returns a report with `1 + 1 = 2` records and `success =
false`. -/
theorem C2_witness :
    run sampleManager sampleWorld [uuidA, "nobody@x"] "lock" true =
      (.ok { success := false, action := "lock", dryRun := true,
             processedCount := 1, failedCount := 1,
             processed := [outcomeRecord uuidA uuidA "lock" "dry_run"],
             failed := [notFoundRecord "nobody@x"] },
       { token := some "tok",
         calls := [Call.auth, Call.emailLookup "nobody@x"] }) ∧
    ({ success := false, action := "lock", dryRun := true,
       processedCount := 1, failedCount := 1,
       processed := [outcomeRecord uuidA uuidA "lock" "dry_run"],
       failed := [notFoundRecord "nobody@x"] } : Report).processedCount +
      ({ success := false, action := "lock", dryRun := true,
         processedCount := 1, failedCount := 1,
         processed := [outcomeRecord uuidA uuidA "lock" "dry_run"],
         failed := [notFoundRecord "nobody@x"] } : Report).failedCount =
      ([uuidA, "nobody@x"] : List String).length := by
  have h : run sampleManager sampleWorld [uuidA, "nobody@x"] "lock" true =
      (.ok { success := false, action := "lock", dryRun := true,
             processedCount := 1, failedCount := 1,
             processed := [outcomeRecord uuidA uuidA "lock" "dry_run"],
             failed := [notFoundRecord "nobody@x"] },
       { token := some "tok",
         calls := [Call.auth, Call.emailLookup "nobody@x"] }) := by decide
  exact ⟨h, (C2_report_invariants sampleManager sampleWorld [uuidA, "nobody@x"]
    "lock" true _ _ h).2.2.1⟩

/-- A dry-run loop iteration only ever adds non-mutating calls (it resolves,
then returns before any lock/delete dispatch). -/
theorem processIdentifier_dry_calls (mgr : Manager) (w : World) (action : String)
    (st : RunState) (i : String) :
    ∃ extra, (processIdentifier mgr w action true st i).2.calls = st.calls ++ extra ∧
      ∀ c ∈ extra, mutatingCall c = false := by
  unfold processIdentifier
  rcases he : ensureUserId w st i with ⟨res, st1⟩
  have hens := ensureUserId_calls w st i
  rw [he] at hens
  cases res with
  | error e => exact hens
  | ok v =>
    cases v with
    | none => exact hens
    | some uid =>
      dsimp only
      rw [if_pos rfl]
      exact hens

/-- A dry-run loop only ever adds non-mutating calls to the trace. -/
theorem runLoop_dry_calls (mgr : Manager) (w : World) (action : String) :
    ∀ (ids : List String) (st : RunState) (ps fs : List Record),
      ∃ extra, (runLoop mgr w action true ids st ps fs).2.calls = st.calls ++ extra ∧
        ∀ c ∈ extra, mutatingCall c = false := by
  intro ids
  induction ids with
  | nil =>
    intro st ps fs
    exact ⟨[], by simp [runLoop], by simp⟩
  | cons i rest ih =>
    intro st ps fs
    unfold runLoop
    rcases hp : processIdentifier mgr w action true st i with ⟨res, st1⟩
    have hstep := processIdentifier_dry_calls mgr w action st i
    rw [hp] at hstep
    rcases hstep with ⟨extra, hext, hnm⟩
    cases res with
    | error e => exact ⟨extra, hext, hnm⟩
    | ok v =>
      rcases v with ⟨pAdd, fAdd⟩
      dsimp only
      rcases ih st1 (ps ++ pAdd) (fs ++ fAdd) with ⟨extra2, hext2, hnm2⟩
      refine ⟨extra ++ extra2, ?_, ?_⟩
      · rw [hext2, hext, List.append_assoc]
      · intro c hc
        rcases List.mem_append.mp hc with hc | hc
        · exact hnm c hc
        · exact hnm2 c hc

/-- The records a successful dry-run iteration appends are determined by the
pure resolution outcome: a `dry_run` processed record when the identifier
resolves, a `not_found` failed record otherwise. -/
theorem processIdentifier_dry_ok (mgr : Manager) (w : World) (action : String)
    (st : RunState) (i : String) (p f : List Record) (st1 : RunState)
    (h : processIdentifier mgr w action true st i = (.ok (p, f), st1)) :
    (∀ uid, resolvesTo w i = some uid →
      p = [outcomeRecord i uid action "dry_run"] ∧ f = []) ∧
    (resolvesTo w i = none → p = [] ∧ f = [notFoundRecord i]) := by
  unfold processIdentifier at h
  rcases he : ensureUserId w st i with ⟨res, st2⟩
  rw [he] at h
  cases res with
  | error e =>
    dsimp only at h
    injection h with h1 h2
    exact Except.noConfusion h1
  | ok v =>
    have hv := ensureUserId_ok_val w st i v st2 he
    cases v with
    | none =>
      dsimp only at h
      injection h with h1 h2
      injection h1 with h3
      constructor
      · intro uid huid
        rw [huid] at hv
        exact Option.noConfusion hv
      · intro _
        exact ⟨congrArg Prod.fst h3.symm, congrArg Prod.snd h3.symm⟩
    | some uid =>
      dsimp only at h
      rw [if_pos rfl] at h
      injection h with h1 h2
      injection h1 with h3
      constructor
      · intro uid2 huid
        rw [huid] at hv
        injection hv with h4
        subst h4
        exact ⟨congrArg Prod.fst h3.symm, congrArg Prod.snd h3.symm⟩
      · intro hnone
        rw [hnone] at hv
        exact Option.noConfusion hv

/-- A successful dry-run loop appends, in list order, exactly one `dry_run`
processed record per resolving identifier. -/
theorem runLoop_dry_processed (mgr : Manager) (w : World) (action : String) :
    ∀ (ids : List String) (st : RunState) (ps fs ps2 fs2 : List Record)
      (st2 : RunState),
      runLoop mgr w action true ids st ps fs = (.ok (ps2, fs2), st2) →
      ps2 = ps ++ ids.filterMap (fun i => (resolvesTo w i).map
        (fun uid => outcomeRecord i uid action "dry_run")) := by
  intro ids
  induction ids with
  | nil =>
    intro st ps fs ps2 fs2 st2 h
    unfold runLoop at h
    injection h with h1 h2
    injection h1 with h3
    injection h3 with hps hfs
    subst hps
    simp
  | cons i rest ih =>
    intro st ps fs ps2 fs2 st2 h
    unfold runLoop at h
    rcases hp : processIdentifier mgr w action true st i with ⟨res, st1⟩
    rw [hp] at h
    cases res with
    | error e =>
      dsimp only at h
      injection h with h1 h2
      exact Except.noConfusion h1
    | ok v =>
      rcases v with ⟨pAdd, fAdd⟩
      dsimp only at h
      have hstep := processIdentifier_dry_ok mgr w action st i pAdd fAdd st1 hp
      have hrest := ih st1 (ps ++ pAdd) (fs ++ fAdd) ps2 fs2 st2 h
      rw [hrest, List.filterMap_cons]
      cases hres : resolvesTo w i with
      | none =>
        rcases hstep.2 hres with ⟨hpA, -⟩
        subst hpA
        simp
      | some uid =>
        rcases hstep.1 uid hres with ⟨hpA, -⟩
        subst hpA
        simp

/-- C3: For every identifier list and every action, a dry run never invokes
`lock_user` or `delete_user` — no mutating HTTP call appears in the trace,
whether the run returns or raises — and when it returns a report, the
processed list consists, in order, of exactly one record with status
`dry_run` per identifier that resolves to a UUID. -/
theorem C3_dry_run_never_mutates (mgr : Manager) (w : World) (ids : List String)
    (action : String) :
    (∀ c ∈ (run mgr w ids action true).2.calls, mutatingCall c = false) ∧
    (∀ r st2, run mgr w ids action true = (.ok r, st2) →
      r.processed = ids.filterMap (fun i => (resolvesTo w i).map
        (fun uid => outcomeRecord i uid action "dry_run"))) := by
  constructor
  · unfold run
    by_cases hids : ids.isEmpty = true
    · rw [if_pos hids]
      simp
    · rw [if_neg hids]
      rcases ha : doAuthHeaders w { token := none, calls := [] } with ⟨ares, st1⟩
      have hac := doAuthHeaders_calls w { token := none, calls := [] }
      rw [ha] at hac
      rcases hac with ⟨extra, hext, hnm⟩
      cases ares with
      | error e =>
        dsimp only
        intro c hc
        have h1 : st1.calls = [] ++ extra := hext
        rw [h1] at hc
        simp only [List.nil_append] at hc
        exact hnm c hc
      | ok hs =>
        dsimp only
        rcases hl : runLoop mgr w action true ids st1 [] [] with ⟨lres, st3⟩
        have hlc := runLoop_dry_calls mgr w action ids st1 [] []
        rw [hl] at hlc
        rcases hlc with ⟨extra2, hext2, hnm2⟩
        have htrace : ∀ c ∈ st3.calls, mutatingCall c = false := by
          intro c hc
          have h3 : st3.calls = st1.calls ++ extra2 := hext2
          have h1 : st1.calls = [] ++ extra := hext
          rw [h3, h1] at hc
          simp only [List.nil_append, List.mem_append] at hc
          rcases hc with hc | hc
          · exact hnm c hc
          · exact hnm2 c hc
        cases lres with
        | error e => exact htrace
        | ok v =>
          rcases v with ⟨ps, fs⟩
          exact htrace
  · intro r st2 h
    rcases run_ok_inversion mgr w ids action true r st2 h with
      ⟨st1, hs, ps, fs, hids, ha, hl, hr⟩
    subst hr
    simpa using runLoop_dry_processed mgr w action ids st1 [] [] ps fs st2 hl

/-- Witness for C3: the dry-run of `sampleWorld` over a UUID, a resolvable
email and an unresolvable email mutates nothing and records two `dry_run`
entries. -/
theorem C3_witness :
    (∀ c ∈ (run sampleManager sampleWorld [uuidA, "user@example.com", "nobody@x"]
      "lock" true).2.calls, mutatingCall c = false) ∧
    (∀ r st2, run sampleManager sampleWorld [uuidA, "user@example.com", "nobody@x"]
        "lock" true = (.ok r, st2) →
      r.processed = ([uuidA, "user@example.com", "nobody@x"] : List String).filterMap
        (fun i => (resolvesTo sampleWorld i).map
          (fun uid => outcomeRecord i uid "lock" "dry_run"))) :=
  C3_dry_run_never_mutates sampleManager sampleWorld
    [uuidA, "user@example.com", "nobody@x"] "lock"

/-- Every record accumulated by a successful loop either was already in the
accumulators or has one of the loop's four record shapes, for some listed
identifier. -/
theorem runLoop_ok_records (mgr : Manager) (w : World) (action : String)
    (dryRun : Bool) :
    ∀ (ids : List String) (st : RunState) (ps fs ps2 fs2 : List Record)
      (st2 : RunState),
      runLoop mgr w action dryRun ids st ps fs = (.ok (ps2, fs2), st2) →
      ∀ rec ∈ ps2 ++ fs2, rec ∈ ps ++ fs ∨ ∃ i ∈ ids,
        rec = notFoundRecord i ∨ ∃ uid s,
          s ∈ (["dry_run", "success", "failed"] : List String) ∧
          rec = outcomeRecord i uid action s := by
  intro ids
  induction ids with
  | nil =>
    intro st ps fs ps2 fs2 st2 h rec hrec
    unfold runLoop at h
    injection h with h1 h2
    injection h1 with h3
    injection h3 with hps hfs
    subst hps
    subst hfs
    exact Or.inl hrec
  | cons i rest ih =>
    intro st ps fs ps2 fs2 st2 h rec hrec
    unfold runLoop at h
    rcases hp : processIdentifier mgr w action dryRun st i with ⟨res, st1⟩
    rw [hp] at h
    cases res with
    | error e =>
      dsimp only at h
      injection h with h1 h2
      exact Except.noConfusion h1
    | ok v =>
      rcases v with ⟨pAdd, fAdd⟩
      dsimp only at h
      have hshape := processIdentifier_ok_shape mgr w action dryRun st i pAdd fAdd st1 hp
      have hadd : rec ∈ pAdd ++ fAdd → ∃ i2 ∈ i :: rest,
          rec = notFoundRecord i2 ∨ ∃ uid s,
            s ∈ (["dry_run", "success", "failed"] : List String) ∧
            rec = outcomeRecord i2 uid action s := by
        intro hin
        refine ⟨i, List.mem_cons_self i rest, ?_⟩
        rcases hshape with ⟨hpA, hfA⟩ | ⟨uid, hpA, hfA⟩ | ⟨uid, hpA, hfA⟩ |
          ⟨uid, hpA, hfA⟩ <;> subst hpA <;> subst hfA <;> simp at hin <;> subst hin
        · exact Or.inl rfl
        · exact Or.inr ⟨uid, "dry_run", by simp, rfl⟩
        · exact Or.inr ⟨uid, "success", by simp, rfl⟩
        · exact Or.inr ⟨uid, "failed", by simp, rfl⟩
      rcases ih st1 (ps ++ pAdd) (fs ++ fAdd) ps2 fs2 st2 h rec hrec with hold | hnew
      · simp only [List.mem_append] at hold
        rcases hold with (hold | hold) | (hold | hold)
        · exact Or.inl (List.mem_append.mpr (Or.inl hold))
        · exact Or.inr (hadd (List.mem_append.mpr (Or.inl hold)))
        · exact Or.inl (List.mem_append.mpr (Or.inr hold))
        · exact Or.inr (hadd (List.mem_append.mpr (Or.inr hold)))
      · rcases hnew with ⟨i2, hi2, hshape2⟩
        exact Or.inr ⟨i2, List.mem_cons_of_mem i hi2, hshape2⟩

/-- Counterexample to C4 as stated: a report record need not contain an
`action` or a `status` field.  An unresolvable identifier yields the failed
record `{"identifier": ..., "reason": "not_found"}` (app.py line 238) with
no `action` key, no `status` key, and `not_found` under `reason` rather than
`status`. -/
theorem C4_cex_not_found_record_lacks_action_and_status :
    (run sampleManager sampleWorld ["nobody@x"] "lock" true).1 =
      .ok { success := false, action := "lock", dryRun := true,
            processedCount := 0, failedCount := 1, processed := [],
            failed := [[("identifier", "nobody@x"), ("reason", "not_found")]] } ∧
    ([("identifier", "nobody@x"), ("reason", "not_found")] : Record).lookup
      "status" = none ∧
    ([("identifier", "nobody@x"), ("reason", "not_found")] : Record).lookup
      "action" = none ∧
    ([("identifier", "nobody@x"), ("reason", "not_found")] : Record).lookup
      "reason" = some "not_found" :=
  ⟨by decide, rfl, rfl, rfl⟩

/-- C4 (amended): every record appended to the report's processed or failed
lists is created exactly once per identifier-list entry per run (their total
count equals the list's length) and is either an outcome record containing
the identifier, the resolved user id, the action, and a status among
`dry_run`/`success`/`failed`, or — for an identifier that did not resolve —
a record containing only the identifier and `reason = "not_found"`, with no
action or status field.  (Records are values in this model; the loop only
ever appends, so a record is not mutated after creation.) -/
theorem C4_amended_record_shapes (mgr : Manager) (w : World) (ids : List String)
    (action : String) (dryRun : Bool) (r : Report) (st2 : RunState)
    (h : run mgr w ids action dryRun = (.ok r, st2)) :
    (∀ rec ∈ r.processed ++ r.failed, ∃ i ∈ ids,
      rec = notFoundRecord i ∨ ∃ uid s,
        s ∈ (["dry_run", "success", "failed"] : List String) ∧
        rec = outcomeRecord i uid action s) ∧
    r.processed.length + r.failed.length = ids.length := by
  rcases run_ok_inversion mgr w ids action dryRun r st2 h with
    ⟨st1, hs, ps, fs, hids, ha, hl, hr⟩
  subst hr
  constructor
  · intro rec hrec
    rcases runLoop_ok_records mgr w action dryRun ids st1 [] [] ps fs st2 hl
      rec hrec with hold | hnew
    · simp at hold
    · exact hnew
  · simpa using runLoop_ok_count mgr w action dryRun ids st1 [] [] ps fs st2 hl

/-- Witness for C4 (amended) on a concrete dry run with one resolved and one
unresolved identifier. -/
theorem C4_witness :
    run sampleManager sampleWorld [uuidA, "nobody@x"] "delete" true =
      (.ok { success := false, action := "delete", dryRun := true,
             processedCount := 1, failedCount := 1,
             processed := [outcomeRecord uuidA uuidA "delete" "dry_run"],
             failed := [notFoundRecord "nobody@x"] },
       { token := some "tok",
         calls := [Call.auth, Call.emailLookup "nobody@x"] }) ∧
    (∀ rec ∈ ([outcomeRecord uuidA uuidA "delete" "dry_run"] ++
        [notFoundRecord "nobody@x"] : List Record),
      ∃ i ∈ ([uuidA, "nobody@x"] : List String),
        rec = notFoundRecord i ∨ ∃ uid s,
          s ∈ (["dry_run", "success", "failed"] : List String) ∧
          rec = outcomeRecord i uid "delete" s) := by
  have h : run sampleManager sampleWorld [uuidA, "nobody@x"] "delete" true =
      (.ok { success := false, action := "delete", dryRun := true,
             processedCount := 1, failedCount := 1,
             processed := [outcomeRecord uuidA uuidA "delete" "dry_run"],
             failed := [notFoundRecord "nobody@x"] },
       { token := some "tok",
         calls := [Call.auth, Call.emailLookup "nobody@x"] }) := by decide
  exact ⟨h, (C4_amended_record_shapes sampleManager sampleWorld
    [uuidA, "nobody@x"] "delete" true _ _ h).1⟩

/-- A dry-run iteration can only raise an authentication failure: the
invalid-action `ValueError` lives behind the `if dry_run` early return. -/
theorem processIdentifier_dry_error_auth (mgr : Manager) (w : World)
    (action : String) (st : RunState) (i : String) (e : RunError)
    (st1 : RunState)
    (h : processIdentifier mgr w action true st i = (.error e, st1)) :
    ∃ s r, e = .authFailed s r := by
  unfold processIdentifier at h
  rcases he : ensureUserId w st i with ⟨res, st2⟩
  rw [he] at h
  cases res with
  | error e2 =>
    dsimp only at h
    have : e2 = e := by
      injection h with h1 h2
      exact Except.error.inj h1
    subst this
    exact ensureUserId_error_auth w st i e2 st2 he
  | ok v =>
    cases v with
    | none =>
      dsimp only at h
      injection h with h1 h2
      exact Except.noConfusion h1
    | some uid =>
      dsimp only at h
      rw [if_pos rfl] at h
      injection h with h1 h2
      exact Except.noConfusion h1

/-- A dry-run loop can only raise an authentication failure. -/
theorem runLoop_dry_error_auth (mgr : Manager) (w : World) (action : String) :
    ∀ (ids : List String) (st : RunState) (ps fs : List Record) (e : RunError)
      (st2 : RunState),
      runLoop mgr w action true ids st ps fs = (.error e, st2) →
      ∃ s r, e = .authFailed s r := by
  intro ids
  induction ids with
  | nil =>
    intro st ps fs e st2 h
    unfold runLoop at h
    injection h with h1 h2
    exact Except.noConfusion h1
  | cons i rest ih =>
    intro st ps fs e st2 h
    unfold runLoop at h
    rcases hp : processIdentifier mgr w action true st i with ⟨res, st1⟩
    rw [hp] at h
    cases res with
    | error e2 =>
      dsimp only at h
      have : e2 = e := by
        injection h with h1 h2
        exact Except.error.inj h1
      subst this
      exact processIdentifier_dry_error_auth mgr w action st i e2 st1 hp
    | ok v =>
      rcases v with ⟨pAdd, fAdd⟩
      dsimp only at h
      exact ih st1 (ps ++ pAdd) (fs ++ fAdd) e st2 h

/-- Any error a dry run raises is the empty-list `ValueError` or an
authentication failure — never the invalid-action `ValueError`. -/
theorem run_dry_error_shape (mgr : Manager) (w : World) (ids : List String)
    (action : String) (e : RunError) (st2 : RunState)
    (h : run mgr w ids action true = (.error e, st2)) :
    e = .emptyList ∨ ∃ s r, e = .authFailed s r := by
  unfold run at h
  by_cases hids : ids.isEmpty = true
  · rw [if_pos hids] at h
    injection h with h1 h2
    exact Or.inl (Except.error.inj h1).symm
  · rw [if_neg hids] at h
    rcases ha : doAuthHeaders w { token := none, calls := [] } with ⟨ares, st1⟩
    rw [ha] at h
    cases ares with
    | error e2 =>
      dsimp only at h
      have : e2 = e := by
        injection h with h1 h2
        exact Except.error.inj h1
      subst this
      exact Or.inr (doAuthHeaders_error_shape w _ e2 st1 ha)
    | ok hs =>
      dsimp only at h
      rcases hl : runLoop mgr w action true ids st1 [] [] with ⟨lres, st3⟩
      rw [hl] at h
      cases lres with
      | error e2 =>
        dsimp only at h
        have : e2 = e := by
          injection h with h1 h2
          exact Except.error.inj h1
        subst this
        exact Or.inr (runLoop_dry_error_auth mgr w action ids st1 [] [] e2 st3 hl)
      | ok v =>
        rcases v with ⟨ps, fs⟩
        dsimp only at h
        injection h with h1 h2
        exact Except.noConfusion h1

/-- In execute mode with an action that is neither lock nor delete, an
iteration can only complete when the identifier did not resolve; a resolved
identifier reaches the dispatch and raises the invalid-action `ValueError`. -/
theorem processIdentifier_exec_invalid (mgr : Manager) (w : World)
    (action : String) (st : RunState) (i : String)
    (hbl : (action == "lock") = false) (hbd : (action == "delete") = false) :
    ∀ (p f : List Record) (st1 : RunState),
      processIdentifier mgr w action false st i = (.ok (p, f), st1) →
      p = [] ∧ f = [notFoundRecord i] := by
  intro p f st1 h
  unfold processIdentifier at h
  rcases he : ensureUserId w st i with ⟨res, st2⟩
  rw [he] at h
  cases res with
  | error e =>
    dsimp only at h
    injection h with h1 h2
    exact Except.noConfusion h1
  | ok v =>
    cases v with
    | none =>
      dsimp only at h
      injection h with h1 h2
      injection h1 with h3
      exact ⟨congrArg Prod.fst h3.symm, congrArg Prod.snd h3.symm⟩
    | some uid =>
      dsimp only at h
      rw [if_neg (by simp)] at h
      unfold execAction at h
      rw [if_neg (by simp [hbl]), if_neg (by simp [hbd])] at h
      injection h with h1 h2
      exact Except.noConfusion h1

/-- In execute mode with an invalid action, a loop that completes processed
nothing: every identifier it passed failed to resolve. -/
theorem runLoop_exec_invalid (mgr : Manager) (w : World) (action : String)
    (hbl : (action == "lock") = false) (hbd : (action == "delete") = false) :
    ∀ (ids : List String) (st : RunState) (ps fs ps2 fs2 : List Record)
      (st2 : RunState),
      runLoop mgr w action false ids st ps fs = (.ok (ps2, fs2), st2) →
      ps2 = ps ∧ fs2 = fs ++ ids.map notFoundRecord := by
  intro ids
  induction ids with
  | nil =>
    intro st ps fs ps2 fs2 st2 h
    unfold runLoop at h
    injection h with h1 h2
    injection h1 with h3
    injection h3 with hps hfs
    subst hps
    subst hfs
    simp
  | cons i rest ih =>
    intro st ps fs ps2 fs2 st2 h
    unfold runLoop at h
    rcases hp : processIdentifier mgr w action false st i with ⟨res, st1⟩
    rw [hp] at h
    cases res with
    | error e =>
      dsimp only at h
      injection h with h1 h2
      exact Except.noConfusion h1
    | ok v =>
      rcases v with ⟨pAdd, fAdd⟩
      dsimp only at h
      rcases processIdentifier_exec_invalid mgr w action st i hbl hbd
        pAdd fAdd st1 hp with ⟨hpA, hfA⟩
      subst hpA
      subst hfA
      rcases ih st1 (ps ++ []) (fs ++ [notFoundRecord i]) ps2 fs2 st2 h with ⟨h1, h2⟩
      constructor
      · simpa using h1
      · rw [h2]
        simp

/-- Counterexample to C1 as stated: with the invalid action `"frobnicate"`
and dry-run mode, `run` raises nothing at all — it returns a normal report,
even processing the identifier — because the action check sits inside the
per-item loop behind the `if dry_run` early return (app.py lines 252-258),
not before the loop. -/
theorem C1_cex_invalid_action_dry_run_returns_report :
    ("frobnicate" ≠ "lock" ∧ "frobnicate" ≠ "delete") ∧
    (run sampleManager sampleWorld [uuidA] "frobnicate" true).1 =
      .ok { success := true, action := "frobnicate", dryRun := true,
            processedCount := 1, failedCount := 0,
            processed := [outcomeRecord uuidA uuidA "frobnicate" "dry_run"],
            failed := [] } :=
  ⟨⟨by decide, by decide⟩, by decide⟩

/-- C1 (amended): `run` validates the action only inside the per-item loop
and only in execute mode.  For an action other than lock/delete: a dry run
never raises the invalid-action error (any error it raises is the empty-list
check or an authentication failure), and an execute run returns a report
only when no identifier resolved — the report's processed list is empty and
its failed list is exactly one `not_found` record per identifier; a resolved
identifier instead raises the `ValueError` at its own loop iteration. -/
theorem C1_action_validated_per_item (mgr : Manager) (w : World)
    (ids : List String) (action : String)
    (hL : action ≠ "lock") (hD : action ≠ "delete") :
    ((run mgr w ids action true).1 ≠ .error .invalidAction) ∧
    (∀ r st2, run mgr w ids action false = (.ok r, st2) →
      r.processed = [] ∧ r.failed = ids.map notFoundRecord) := by
  constructor
  · intro hbad
    rcases hrun : run mgr w ids action true with ⟨res, st2⟩
    rw [hrun] at hbad
    dsimp only at hbad
    subst hbad
    rcases run_dry_error_shape mgr w ids action .invalidAction st2 hrun with
      h | ⟨s, r, h⟩ <;> exact RunError.noConfusion h
  · intro r st2 h
    rcases run_ok_inversion mgr w ids action false r st2 h with
      ⟨st1, hs, ps, fs, hids, ha, hl, hr⟩
    subst hr
    have hbl : (action == "lock") = false := by
      simp [hL]
    have hbd : (action == "delete") = false := by
      simp [hD]
    rcases runLoop_exec_invalid mgr w action hbl hbd ids st1 [] [] ps fs st2 hl
      with ⟨h1, h2⟩
    subst h1
    subst h2
    simp

/-- Witness for C1 (amended) at action `"frobnicate"` over one unresolvable
identifier. -/
theorem C1_witness :
    "frobnicate" ≠ "lock" ∧ "frobnicate" ≠ "delete" ∧
    (((run sampleManager sampleWorld ["nobody@x"] "frobnicate" true).1 ≠
        .error .invalidAction) ∧
      (∀ r st2, run sampleManager sampleWorld ["nobody@x"] "frobnicate" false =
          (.ok r, st2) →
        r.processed = [] ∧
        r.failed = (["nobody@x"] : List String).map notFoundRecord)) :=
  ⟨by decide, by decide,
    C1_action_validated_per_item sampleManager sampleWorld ["nobody@x"]
      "frobnicate" (by decide) (by decide)⟩

end FronteggBulk
